import Mathlib

set_option maxRecDepth 40000

/-!
Verification development for the Selfie-Sphere collage engine.

This file shallowly embeds the core of the repository:
* `SlotManager` (src/components/three/CollageScene.tsx, lines 38-105): stable
  photo-id → slot-index assignment;
* the per-photo smoothing step of `PhotoMesh` (same file, lines 180-203);
* the pattern generators `GridPattern`, `FloatPattern`, `WavePattern`,
  `SpiralPattern` and their caching base class `BasePattern`
  (src/components/three/patterns/*);
* `PatternFactory.createPattern`'s pattern selection and fallback;
* the wave and spiral camera paths of `CameraMovementSystem.tsx`.

Numbers are embedded as `ℚ` (IEEE doubles behave exactly on the small decimal
literals and the structural facts proved here; transcendental functions
`Math.sin`, `Math.cos`, `Math.sqrt`, `Math.atan2`, `Math.pow` and the constant
`Math.PI` are abstracted into a `MathOracle` parameter, so every theorem
quantifying over the oracle holds for the actual library functions).
JavaScript `Map`s are embedded as insertion-ordered association lists, which
matches `Map`'s iteration-order semantics; the `occupiedSlots : Set<number>`
field of `SlotManager`, which the source keeps exactly in sync with the value
image of `slotAssignments`, is embedded as the derived list of assigned slots.
-/

/-- A photo record as consumed by the engine (`CollageScene.tsx` type `Photo`;
`collage_id`/`created_at` are never read by the slot logic). -/
structure Photo where
  id : String
  url : String
  deriving DecidableEq, Repr

/-- `photos.filter(p => p && p.id)`: entries are non-null records in the
embedding, and a truthy `id` is a non-empty string. -/
def safeFilter (photos : List Photo) : List Photo :=
  photos.filter (fun p => p.id ≠ "")

/-- The mutable fields of `SlotManager`.  `slotAssignments` is the
insertion-ordered `Map<string, number>`; `occupiedSlots` is derived
(see module comment); `assignmentLock` is omitted because in the
single-threaded frame loop it is set and cleared inside one call and is
therefore always `false` at entry. -/
structure SlotState where
  slotAssignments : List (String × Nat)
  availableSlots : List Nat
  totalSlots : Nat
  deriving DecidableEq, Repr

namespace SlotState

/-- The ids currently holding a slot (key set of `slotAssignments`). -/
def idsOf (a : List (String × Nat)) : List String := a.map Prod.fst

/-- The occupied slots (`occupiedSlots` in the source, kept in sync with the
value image of `slotAssignments`). -/
def slotsOf (a : List (String × Nat)) : List Nat := a.map Prod.snd

/-- `this.slotAssignments.get(id)` — first (unique) binding of `id`. -/
def lookupSlot (a : List (String × Nat)) (id : String) : Option Nat :=
  (a.find? (fun e => e.1 = id)).map Prod.snd

/-- `this.slotAssignments.has(id)`. -/
def hasId (a : List (String × Nat)) (id : String) : Bool :=
  a.any (fun e => e.1 = id)

/-- `rebuildAvailableSlots` (CollageScene.tsx 64-72): collect every
unoccupied index `0 ≤ i < totalSlots`, ascending.  The source pushes the
indices in increasing order and then sorts, which is the identity on the
already-sorted list, so the embedding drops the sort. -/
def rebuildAvailableSlots (s : SlotState) : SlotState :=
  { s with availableSlots :=
      (List.range s.totalSlots).filter (fun i => i ∉ slotsOf s.slotAssignments) }

/-- `updateSlotCount` (CollageScene.tsx 49-62): no-op when the count is
unchanged; otherwise evict every mapping whose slot falls out of range and
rebuild the free list. -/
def updateSlotCount (s : SlotState) (newTotal : Nat) : SlotState :=
  if newTotal = s.totalSlots then s
  else
    rebuildAvailableSlots
      { s with
        totalSlots := newTotal
        slotAssignments := s.slotAssignments.filter (fun e => e.2 < newTotal) }

/-- `new SlotManager(totalSlots)` (CollageScene.tsx 45-47). -/
def initSlotManager (totalSlots : Nat) : SlotState :=
  updateSlotCount ⟨[], [], 0⟩ totalSlots

/-- The assignment loop of `assignSlots` (CollageScene.tsx 92-100): for each
photo in list order, if its id is unmapped, shift the head of
`availableSlots` (the lowest stale free slot) and bind it. -/
def assignLoop (s : SlotState) : List Photo → SlotState
  | [] => s
  | p :: rest =>
    if hasId s.slotAssignments p.id then assignLoop s rest
    else
      match s.availableSlots with
      | [] => assignLoop s rest
      | slot :: restSlots =>
        assignLoop
          { s with
            slotAssignments := s.slotAssignments ++ [(p.id, slot)]
            availableSlots := restSlots } rest

/-- `assignSlots` (CollageScene.tsx 74-105): capacity retarget to
`max(liveCount + 50, 100)`, removal of dead ids, assignment of new ids from
the (stale) free list, final free-list rebuild.  The returned `Map` is the
final `slotAssignments`. -/
def assignSlots (s : SlotState) (photos : List Photo) : SlotState :=
  let safePhotos := safeFilter photos
  let target := max (safePhotos.length + 50) 100
  let s1 := if s.totalSlots ≠ target then updateSlotCount s target else s
  let currentPhotoIds := safePhotos.map Photo.id
  let s2 := { s1 with
    slotAssignments := s1.slotAssignments.filter (fun e => e.1 ∈ currentPhotoIds) }
  rebuildAvailableSlots (assignLoop s2 safePhotos)

/-- The functional form of the assignment loop (CollageScene.tsx 92-100):
given the set `mapped` of already-bound ids and the stale free list `avail`,
produce the list of new bindings in input order. -/
def assignNew : List String → List Nat → List Photo → List (String × Nat)
  | _, _, [] => []
  | mapped, [], _ :: rest => assignNew mapped [] rest
  | mapped, slot :: restSlots, p :: rest =>
    if p.id ∈ mapped then assignNew mapped (slot :: restSlots) rest
    else (p.id, slot) :: assignNew (p.id :: mapped) restSlots rest

/-- Phase 0 of `assignSlots` (CollageScene.tsx 80-82): retarget capacity to
`max(liveCount + 50, 100)`. -/
def capacityPhase (s : SlotState) (photos : List Photo) : SlotState :=
  let target := max ((safeFilter photos).length + 50) 100
  if s.totalSlots ≠ target then updateSlotCount s target else s

/-- Phase 1 of `assignSlots` (CollageScene.tsx 84-90): drop every mapping whose
id is absent from the live list.  Note the free list is NOT updated here. -/
def removalPhase (s : SlotState) (photos : List Photo) : SlotState :=
  { s with slotAssignments :=
      s.slotAssignments.filter (fun e => e.1 ∈ (safeFilter photos).map Photo.id) }

/-- The call-boundary invariant of `SlotManager`: ids and slots are duplicate
free, every slot is in range, and `availableSlots` is exactly the ascending
list of unoccupied slots (the constructor, `updateSlotCount` and `assignSlots`
all end in `rebuildAvailableSlots`). -/
abbrev WF (s : SlotState) : Prop :=
  (idsOf s.slotAssignments).Nodup ∧
  (slotsOf s.slotAssignments).Nodup ∧
  (∀ e ∈ s.slotAssignments, e.2 < s.totalSlots) ∧
  s.availableSlots
    = (List.range s.totalSlots).filter (fun i => i ∉ slotsOf s.slotAssignments)

end SlotState

/- ### Numeric embedding: math oracle, vectors, settings -/

/-- The transcendental `Math` functions and `Math.PI`, abstracted so that the
embedding stays inside `ℚ`.  Theorems quantified over the oracle hold for the
actual JavaScript functions; witnesses instantiate a concrete oracle. -/
structure MathOracle where
  sin : ℚ → ℚ
  cos : ℚ → ℚ
  sqrt : ℚ → ℚ
  atan2 : ℚ → ℚ → ℚ
  pow : ℚ → ℚ → ℚ
  pi : ℚ

/-- A concrete oracle used only to evaluate witnesses and counterexamples
(the claims proved with it quantify over arbitrary oracles unless the
property is independent of the trig values). -/
def oracleId : MathOracle :=
  { sin := fun q => q, cos := fun q => q, sqrt := fun q => q,
    atan2 := fun a _ => a, pow := fun a _ => a, pi := 314159/100000 }

/-- JavaScript `x || d` on numbers: `0` (falsy) falls back to the default
(`NaN`/`undefined` are outside the embedding). -/
def orDefault (x d : ℚ) : ℚ := if x = 0 then d else x

/-- Truncation toward zero, as JavaScript division-based remainder needs. -/
def ratTrunc (q : ℚ) : ℤ := if 0 ≤ q then ⌊q⌋ else ⌈q⌉

/-- JavaScript `%` on numbers: remainder with the dividend's sign
(divisor 0 never occurs at the call sites embedded here). -/
def jsMod (a b : ℚ) : ℚ := a - b * (ratTrunc (a / b) : ℚ)

structure Vec3 where
  x : ℚ
  y : ℚ
  z : ℚ
  deriving DecidableEq, Repr

/-- Per-pattern camera tuning for the wave pattern (`settings.patterns.wave`). -/
structure WaveCameraSettings where
  cameraWaveAmplitude : ℚ
  deriving DecidableEq, Repr

/-- Per-pattern camera tuning for the spiral pattern
(`settings.patterns.spiral`).  `cameraHeightVariation` is read as
`!== false`, so the `Bool` field is that comparison's result. -/
structure SpiralCameraSettings where
  cameraOrbitSpeed : ℚ
  cameraOrbitRadius : ℚ
  cameraHeightVariation : Bool
  cameraOrbitDirection : String
  deriving DecidableEq, Repr

/-- The subset of `SceneSettings` read by the embedded code paths. -/
structure SceneSettings where
  animationPattern : String
  photoCount : Nat
  animationSpeed : ℚ
  animationEnabled : Bool
  photoSize : ℚ
  photoSpacing : ℚ
  photoRotation : Bool
  gridAspectRatio : ℚ
  wallHeight : ℚ
  floorSize : ℚ
  cameraDistance : ℚ
  cameraHeight : ℚ
  patternsWave : WaveCameraSettings
  patternsSpiral : SpiralCameraSettings
  deriving DecidableEq, Repr

/-- `PatternState` (PatternFactory.tsx 10-13).  All four generators always
push a rotation entry alongside each position, so `rotations` is not
optional in the embedding. -/
structure PatternState where
  positions : List Vec3
  rotations : List Vec3
  deriving DecidableEq, Repr

/- ### GridPattern (src/components/three/patterns/GridPattern.tsx) -/

/-- One loop iteration of `GridPattern.generatePositionsInternal`
(GridPattern.tsx 47-101), producing the position and rotation for slot `i`.
`columns`/`rows` are passed as the integer values `Math.ceil` produced. -/
def gridEntry (o : MathOracle) (s : SceneSettings) (columns rows : ℤ)
    (horizontalSpacing verticalSpacing animationTime : ℚ) (i : ℕ) : Vec3 × Vec3 :=
  let columnsN : ℕ := columns.toNat
  let col : ℕ := i % columnsN
  let row : ℕ := i / columnsN
  let wallHeight := s.wallHeight
  let x0 : ℚ := ((col : ℚ) - ((columns : ℚ) - 1) / 2) * horizontalSpacing
  let y0 : ℚ := wallHeight + ((row : ℚ) - ((rows : ℚ) - 1) / 2) * verticalSpacing
  let pos : Vec3 :=
    if s.animationEnabled then
      let wavePhase := animationTime * 2
      let gridDistance :=
        o.sqrt (((col : ℚ) - (columns : ℚ) / 2) ^ 2 + ((row : ℚ) - (rows : ℚ) / 2) ^ 2)
      let z1 := o.sin (wavePhase + gridDistance * (1/10)) * 2
        + o.sin (animationTime * (8/10) + (i : ℚ) * (1/10)) * (1/2)
      let x1 := x0 + o.sin (animationTime * (3/10) + (i : ℚ) * (7/10)) * (3/10)
      let y1 := y0 + o.cos (animationTime * (4/10) + (i : ℚ) * (9/10)) * (3/10)
      ⟨x1, y1, z1⟩
    else ⟨x0, y0, 0⟩
  let rot : Vec3 :=
    if s.photoRotation then
      if s.animationEnabled then
        ⟨o.sin (animationTime * (6/10) + (i : ℚ) * (4/10)) * (5/100),
         o.cos (animationTime * (5/10) + (i : ℚ) * (6/10)) * (3/100),
         o.sin (animationTime * (7/10) + (i : ℚ) * (8/10)) * (2/100)⟩
      else ⟨0, 0, 0⟩
    else ⟨0, 0, 0⟩
  (pos, rot)

/-- `GridPattern.generatePositionsInternal` (GridPattern.tsx 5-104). -/
def gridGenerate (o : MathOracle) (s : SceneSettings) (time : ℚ) : PatternState :=
  let totalPhotos := min s.photoCount 500
  let aspectRatio := orDefault s.gridAspectRatio 1
  let columns : ℤ := ⌈o.sqrt ((totalPhotos : ℚ) * aspectRatio)⌉
  let rows : ℤ := ⌈(totalPhotos : ℚ) / (columns : ℚ)⌉
  let photoSize := orDefault s.photoSize 4
  let spacingPercentage := s.photoSpacing
  let horizontalSpacing : ℚ :=
    if spacingPercentage = 0 then photoSize * (562/1000)
    else photoSize + spacingPercentage * photoSize * 2
  let verticalSpacing : ℚ :=
    if spacingPercentage = 0 then photoSize
    else photoSize + spacingPercentage * photoSize * 2
  let speed := s.animationSpeed / 100
  let animationTime := if s.animationEnabled then time * speed else 0
  let entries := (List.range totalPhotos).map
    (gridEntry o s columns rows horizontalSpacing verticalSpacing animationTime)
  { positions := entries.map Prod.fst, rotations := entries.map Prod.snd }

/- ### WavePattern (src/components/three/patterns/WavePattern.tsx) -/

/-- One loop iteration of `WavePattern.generatePositionsInternal`
(WavePattern.tsx 19-73). -/
def waveEntry (o : MathOracle) (s : SceneSettings) (columns rows : ℤ)
    (spacing wavePhase : ℚ) (i : ℕ) : Vec3 × Vec3 :=
  let columnsN : ℕ := columns.toNat
  let col : ℕ := i % columnsN
  let row : ℕ := i / columnsN
  let x0 : ℚ := ((col : ℚ) - (columns : ℚ) / 2) * spacing
  let z0 : ℚ := ((row : ℚ) - (rows : ℚ) / 2) * spacing
  let distanceFromCenter := o.sqrt (x0 * x0 + z0 * z0)
  let amplitude : ℚ := 15
  let frequency : ℚ := 3/10
  let y : ℚ :=
    if s.animationEnabled then
      s.wallHeight
        + o.sin (distanceFromCenter * frequency - wavePhase) * amplitude
        + o.sin (wavePhase * (1/2)) * (distanceFromCenter * (1/10))
        + o.sin (distanceFromCenter * frequency * 2 - wavePhase * (3/2)) * amplitude * (3/10)
    else s.wallHeight
  let x : ℚ :=
    if s.animationEnabled then
      x0 + o.sin (wavePhase * (8/10) + distanceFromCenter * (2/10)) * (3/2)
    else x0
  let z : ℚ :=
    if s.animationEnabled then
      z0 + o.cos (wavePhase * (6/10) + distanceFromCenter * (3/20)) * (3/2)
    else z0
  let rot : Vec3 :=
    if s.photoRotation then
      let angle := o.atan2 x z
      if s.animationEnabled then
        ⟨o.sin (wavePhase * (1/2) + distanceFromCenter * (1/10)) * (1/10),
         angle + o.sin (distanceFromCenter * frequency - wavePhase) * (5/100),
         o.cos (wavePhase * (1/2) + distanceFromCenter * (1/10)) * (1/10)⟩
      else ⟨0, angle, 0⟩
    else ⟨0, 0, 0⟩
  (⟨x, y, z⟩, rot)

/-- `WavePattern.generatePositionsInternal` (WavePattern.tsx 5-76). -/
def waveGenerate (o : MathOracle) (s : SceneSettings) (time : ℚ) : PatternState :=
  let totalPhotos := min s.photoCount 500
  let spacing := s.photoSize * (1 + s.photoSpacing)
  let columns : ℤ := ⌈o.sqrt (totalPhotos : ℚ)⌉
  let rows : ℤ := ⌈(totalPhotos : ℚ) / (columns : ℚ)⌉
  let speed := s.animationSpeed / 50
  let wavePhase := time * speed * 2
  let entries := (List.range totalPhotos).map (waveEntry o s columns rows spacing wavePhase)
  { positions := entries.map Prod.fst, rotations := entries.map Prod.snd }

/- ### SpiralPattern (src/components/three/patterns/SpiralPattern.tsx) -/

/-- One loop iteration of `SpiralPattern.generatePositionsInternal`
(SpiralPattern.tsx 23-99). -/
def spiralEntry (o : MathOracle) (s : SceneSettings) (animationTime : ℚ) (i : ℕ) :
    Vec3 × Vec3 :=
  let randomSeed1 := o.sin ((i : ℚ) * (73/100)) * (1/2) + 1/2
  let randomSeed2 := o.cos ((i : ℚ) * (137/100)) * (1/2) + 1/2
  let randomSeed3 := o.sin ((i : ℚ) * (211/100)) * (1/2) + 1/2
  let isOrbital := randomSeed1 < 2/10
  let normalizedHeight := o.pow randomSeed2 (7/10)
  let y := s.wallHeight + normalizedHeight * 40
  let funnelRadius : ℚ := 3 + (30 - 3) * normalizedHeight
  let radius : ℚ :=
    if isOrbital then funnelRadius * (3/2 + randomSeed3 * (8/10))
    else funnelRadius * (8/10 + randomSeed3 * (4/10))
  let angleOffset : ℚ := if isOrbital then randomSeed3 * o.pi * 2 else 0
  let verticalWobble : ℚ :=
    if isOrbital ∧ s.animationEnabled then o.sin (animationTime * 2 + (i : ℚ)) * 3 else 0
  let heightSpeedFactor := 3/10 + normalizedHeight * (7/10)
  let angle :=
    if s.animationEnabled then angleOffset + animationTime * (8/10) * heightSpeedFactor
    else angleOffset
  let x := o.cos angle * radius
  let z := o.sin angle * radius
  let rot : Vec3 :=
    if s.photoRotation then
      let tangentAngle := angle + o.pi / 2
      if s.animationEnabled then
        ⟨o.sin (animationTime + (i : ℚ) * (1/2)) * (1/10) + normalizedHeight * (2/10),
         tangentAngle,
         o.cos (animationTime * (8/10) + (i : ℚ) * (3/10)) * (5/100)⟩
      else ⟨0, tangentAngle, 0⟩
    else ⟨0, 0, 0⟩
  (⟨x, y + verticalWobble, z⟩, rot)

/-- `SpiralPattern.generatePositionsInternal` (SpiralPattern.tsx 5-102). -/
def spiralGenerate (o : MathOracle) (s : SceneSettings) (time : ℚ) : PatternState :=
  let totalPhotos := min s.photoCount 500
  let speed := s.animationSpeed / 50
  let animationTime := time * speed * 2
  let entries := (List.range totalPhotos).map (spiralEntry o s animationTime)
  { positions := entries.map Prod.fst, rotations := entries.map Prod.snd }

/- ### FloatPattern (src/components/three/patterns/FloatPattern.tsx) -/

/-- A seeded scatter entry (`BasePosition` in FloatPattern.tsx 4-8). -/
structure BasePosition where
  x : ℚ
  z : ℚ
  phaseOffset : ℚ
  deriving DecidableEq, Repr

/-- `seededRandom` (FloatPattern.tsx 29-32). -/
def seededRandom (o : MathOracle) (seed : ℚ) : ℚ :=
  let x := o.sin (seed * (129898/10000)) * (437585453/10000)
  x - (⌊x⌋ : ℚ)

/-- The pure scatter the regeneration branch of
`generateDynamicBasePositions` computes (FloatPattern.tsx 25-51): the base
position of each slot is a function of the slot index and floor size alone. -/
def pureScatter (o : MathOracle) (totalPhotos : ℕ) (floorSize : ℚ) : List BasePosition :=
  (List.range totalPhotos).map (fun (i : ℕ) =>
    { x := (seededRandom o ((i : ℚ) * (1234567/10000000)) - 1/2) * floorSize
      z := (seededRandom o ((i : ℚ) * (9876543/10000000)) - 1/2) * floorSize
      phaseOffset := seededRandom o ((i : ℚ) * (4567891/10000000)) })

/-- The instance fields of `FloatPattern` that the scatter memoisation uses
(FloatPattern.tsx 10-13), plus the inherited `settings`. -/
structure FloatState where
  settings : SceneSettings
  basePositions : List BasePosition
  lastFloorSize : ℚ
  lastPhotoCount : Nat
  deriving Repr

/-- `new FloatPattern(settings)`: field declarations give `[]`, `0`, `0`. -/
def floatInit (s : SceneSettings) : FloatState :=
  { settings := s, basePositions := [], lastFloorSize := 0, lastPhotoCount := 0 }

/-- `FloatPattern.updateSettings` (FloatPattern.tsx 154-167): any change of
`floorSize` or `photoCount` resets the memoised scatter; the inherited
`super.updateSettings` stores the new settings (its position-cache clearing
is modelled with `CacheState` separately). -/
def floatUpdateSettings (st : FloatState) (s : SceneSettings) : FloatState :=
  if st.settings.floorSize ≠ s.floorSize ∨ st.settings.photoCount ≠ s.photoCount then
    { settings := s, basePositions := [], lastFloorSize := 0, lastPhotoCount := 0 }
  else
    { st with settings := s }

/-- `generateDynamicBasePositions` (FloatPattern.tsx 16-52): memo hit when the
floor size moved by less than 1 and the count matches; otherwise recompute
the seeded scatter and record the inputs. -/
def generateDynamicBasePositions (o : MathOracle) (st : FloatState)
    (totalPhotos : ℕ) (floorSize : ℚ) : List BasePosition × FloatState :=
  if |floorSize - st.lastFloorSize| < 1 ∧ totalPhotos = st.lastPhotoCount ∧
      0 < st.basePositions.length then
    (st.basePositions, st)
  else
    let ps := pureScatter o totalPhotos floorSize
    let st1 : FloatState :=
      { st with basePositions := ps, lastFloorSize := floorSize, lastPhotoCount := totalPhotos }
    (ps, st1)

/-- One loop iteration of `FloatPattern.generatePositionsInternal`
(FloatPattern.tsx 79-148); `none` embeds the `if (!basePos) continue`. -/
def floatEntry (o : MathOracle) (s : SceneSettings) (animationTime driftStrength : ℚ)
    (basePositions : List BasePosition) (i : ℕ) : Option (Vec3 × Vec3) :=
  match basePositions.get? i with
  | none => none
  | some basePos =>
    let riseSpeed : ℚ := 6
    let cycleHeight : ℚ := 200 - (-30)
    let y : ℚ :=
      if s.animationEnabled then
        let totalDistance := animationTime * riseSpeed + basePos.phaseOffset * cycleHeight
        let positionInCycle := jsMod totalDistance cycleHeight
        (-30 : ℚ) + positionInCycle + o.sin (animationTime * (9/5) + (i : ℚ) * (3/10)) * (3/10)
      else (-30 : ℚ) + basePos.phaseOffset * cycleHeight
    let x : ℚ :=
      if s.animationEnabled then
        basePos.x + o.sin (animationTime * (1/4) + (i : ℚ) * (1/2)) * driftStrength
      else basePos.x
    let z : ℚ :=
      if s.animationEnabled then
        basePos.z + o.cos (animationTime * (1/4) * (8/10) + (i : ℚ) * (7/10)) * driftStrength
      else basePos.z
    let rot : Vec3 :=
      if s.photoRotation then
        let rotationY := o.atan2 (-x) (-z)
        if s.animationEnabled then
          ⟨o.sin (animationTime * (4/10) + (i : ℚ) * (2/10)) * (2/100),
           rotationY,
           o.cos (animationTime * (3/10) + (i : ℚ) * (4/10)) * (2/100)⟩
        else ⟨0, rotationY, 0⟩
      else
        if s.animationEnabled then
          ⟨o.sin (animationTime * (2/10) + (i : ℚ) * (1/10)) * (1/100),
           0,
           o.cos (animationTime * (15/100) + (i : ℚ) * (3/10)) * (1/100)⟩
        else ⟨0, 0, 0⟩
    some (⟨x, y, z⟩, rot)

/-- `FloatPattern.generatePositionsInternal` (FloatPattern.tsx 54-151),
returning the new instance state alongside the `PatternState`. -/
def floatGenerate (o : MathOracle) (st : FloatState) (time : ℚ) :
    PatternState × FloatState :=
  let s := st.settings
  let totalPhotos := min s.photoCount 500
  let floorSize := orDefault s.floorSize 200
  let bpst := generateDynamicBasePositions o st totalPhotos floorSize
  let speed := s.animationSpeed / 100
  let animationTime := time * speed
  let driftStrength := max 1 (floorSize * (8/1000))
  let entries := (List.range totalPhotos).filterMap
    (floatEntry o s animationTime driftStrength bpst.1)
  ({ positions := entries.map Prod.fst, rotations := entries.map Prod.snd }, bpst.2)

/-- Histories of a `FloatPattern` instance through its public interface:
construction, `updateSettings`, and `generatePositions` (which drives
`generatePositionsInternal`). -/
inductive FloatReachable (o : MathOracle) : FloatState → Prop
  | init (s : SceneSettings) : FloatReachable o (floatInit s)
  | update (st : FloatState) (s : SceneSettings) :
      FloatReachable o st → FloatReachable o (floatUpdateSettings st s)
  | generate (st : FloatState) (t : ℚ) :
      FloatReachable o st → FloatReachable o (floatGenerate o st t).2

/-- The memoisation invariant of `FloatPattern`: the cached scatter, when
non-empty, is exactly the pure scatter of the recorded inputs, and those
inputs are the current settings' resolved floor size and clamped count. -/
abbrev FloatInv (o : MathOracle) (st : FloatState) : Prop :=
  st.basePositions = [] ∨
    (st.lastFloorSize = orDefault st.settings.floorSize 200 ∧
     st.lastPhotoCount = min st.settings.photoCount 500 ∧
     st.basePositions = pureScatter o st.lastPhotoCount st.lastFloorSize)

/- ### PatternFactory (src/components/three/patterns/PatternFactory.tsx) -/

inductive PatternKind
  | grid
  | float
  | wave
  | spiral
  deriving DecidableEq, Repr

/-- The result of the `switch` in `PatternFactory.createPattern`
(PatternFactory.tsx 114-130): which concrete pattern class is constructed,
and whether the unknown-type `console.warn` fired. -/
structure CreateResult where
  kind : PatternKind
  warned : Bool
  deriving DecidableEq, Repr

/-- `PatternFactory.createPattern`'s pattern selection (PatternFactory.tsx
114-130).  Instance reuse hands the same settings to `updateSettings`, so the
produced generator is determined by this kind and the settings. -/
def createPatternKind (patternType : String) : CreateResult :=
  if patternType = "grid" then ⟨.grid, false⟩
  else if patternType = "float" then ⟨.float, false⟩
  else if patternType = "wave" then ⟨.wave, false⟩
  else if patternType = "spiral" then ⟨.spiral, false⟩
  else ⟨.grid, true⟩

/-- Dispatch of `generatePositionsInternal` over the constructed class;
`FloatPattern` is the only one with instance state. -/
def generateForKind (o : MathOracle) (s : SceneSettings) (fs : FloatState) (time : ℚ) :
    PatternKind → PatternState
  | .grid => gridGenerate o s time
  | .wave => waveGenerate o s time
  | .spiral => spiralGenerate o s time
  | .float => (floatGenerate o fs time).1

/- ### BasePattern position cache (src/components/three/patterns/BasePattern.tsx) -/

/-- The components of the cache-key template string
(BasePattern.tsx 39-43).  The source interpolates the five fields into one
string; keys built from the same settings record are equal exactly when the
tuples are, which is what the equality proofs use. -/
structure CacheKey where
  animationPattern : String
  roundedTime : ℚ
  photoCount : Nat
  animationSpeed : ℚ
  floorSize : ℚ
  deriving DecidableEq, Repr

/-- `Math.floor(time * 60) / 60` (BasePattern.tsx 41). -/
def roundedTime60 (time : ℚ) : ℚ := (⌊time * 60⌋ : ℚ) / 60

def mkCacheKey (s : SceneSettings) (time : ℚ) : CacheKey :=
  { animationPattern := s.animationPattern, roundedTime := roundedTime60 time,
    photoCount := s.photoCount, animationSpeed := s.animationSpeed,
    floorSize := s.floorSize }

/-- The two `Map`s of `BasePattern` (BasePattern.tsx 31-32), as
insertion-ordered association lists. -/
structure CacheState where
  positionCache : List (CacheKey × PatternState)
  cacheTimestamps : List (CacheKey × ℚ)

/-- `Map.get`. -/
def lookupKV {α : Type} (k : CacheKey) : List (CacheKey × α) → Option α
  | [] => none
  | (k', v) :: rest => if k' = k then some v else lookupKV k rest

/-- `Map.set`: update in place if present (keeping insertion order), else
append. -/
def setKV {α : Type} (k : CacheKey) (v : α) : List (CacheKey × α) → List (CacheKey × α)
  | [] => [(k, v)]
  | (k', v') :: rest => if k' = k then (k, v) :: rest else (k', v') :: setKV k v rest

/-- `Map.delete`. -/
def eraseKV {α : Type} (k : CacheKey) : List (CacheKey × α) → List (CacheKey × α)
  | [] => []
  | (k', v') :: rest => if k' = k then rest else (k', v') :: eraseKV k rest

def CACHE_DURATION : ℚ := 1667/100

/-- The store-and-evict tail of `BasePattern.generatePositions`
(BasePattern.tsx 61-70): cache the fresh state, stamp it, and when the cache
exceeds 100 entries drop the oldest (first-inserted) key from both maps. -/
def cacheStore (key : CacheKey) (state : PatternState) (now : ℚ) (st : CacheState) :
    CacheState :=
  let st1 : CacheState :=
    ⟨setKV key state st.positionCache, setKV key now st.cacheTimestamps⟩
  if 100 < st1.positionCache.length then
    match st1.positionCache with
    | [] => st1
    | e :: _ => ⟨eraseKV e.1 st1.positionCache, eraseKV e.1 st1.cacheTimestamps⟩
  else st1

/-- `BasePattern.generatePositions` (BasePattern.tsx 46-73), with the virtual
`generatePositionsInternal` passed as `gen` and `performance.now()` as `now`.
The hit test `cached && cacheTime && now - cacheTime < CACHE_DURATION`
requires a truthy (non-zero) timestamp. -/
def generatePositionsCached (gen : ℚ → PatternState) (s : SceneSettings)
    (now time : ℚ) (st : CacheState) : PatternState × CacheState :=
  let key := mkCacheKey s time
  let hit : Option PatternState :=
    match lookupKV key st.positionCache, lookupKV key st.cacheTimestamps with
    | some cached, some cacheTime =>
      if cacheTime ≠ 0 ∧ now - cacheTime < CACHE_DURATION then some cached else none
    | _, _ => none
  match hit with
  | some cached => (cached, st)
  | none =>
    let state := gen time
    (state, cacheStore key state now st)

/-- The cache invariant: every cached entry is the generator's honest output
at some time whose key (same settings) it is stored under. -/
abbrev CacheWF (gen : ℚ → PatternState) (s : SceneSettings) (st : CacheState) : Prop :=
  ∀ e ∈ st.positionCache, ∃ t', e.1 = mkCacheKey s t' ∧ e.2 = gen t'

/- ### PhotoMesh smoothing (CollageScene.tsx 180-203) -/

def POSITION_SMOOTHING : ℚ := 1/10
def ROTATION_SMOOTHING : ℚ := 1/10
def TELEPORT_THRESHOLD : ℚ := 30

/-- Squared Euclidean distance; `currentPosition.distanceTo(target) > 30`
iff `distSq > 30²`, which keeps the test inside `ℚ`. -/
def distSq (p t : Vec3) : ℚ := (t.x - p.x) ^ 2 + (t.y - p.y) ^ 2 + (t.z - p.z) ^ 2

/-- `THREE.Vector3.lerp`: `this += (v - this) * alpha`, componentwise. -/
def lerpVec (p t : Vec3) (α : ℚ) : Vec3 :=
  ⟨p.x + (t.x - p.x) * α, p.y + (t.y - p.y) * α, p.z + (t.z - p.z) * α⟩

/-- One smoothing tick of the `useFrame` body (CollageScene.tsx 180-203):
teleport when the distance exceeds the threshold, else a fixed-fraction lerp
of position and an independent per-axis rotation blend. -/
def smoothStep (cur curRot target targetRot : Vec3) : Vec3 × Vec3 :=
  if TELEPORT_THRESHOLD ^ 2 < distSq cur target then (target, targetRot)
  else
    (lerpVec cur target POSITION_SMOOTHING,
     ⟨curRot.x + (targetRot.x - curRot.x) * ROTATION_SMOOTHING,
      curRot.y + (targetRot.y - curRot.y) * ROTATION_SMOOTHING,
      curRot.z + (targetRot.z - curRot.z) * ROTATION_SMOOTHING⟩)

/-- `q` lies strictly between `p` and `t`: on the open segment and equal to
neither endpoint. -/
def StrictlyBetween (p t q : Vec3) : Prop :=
  ∃ α : ℚ, 0 < α ∧ α < 1 ∧ q = lerpVec p t α ∧ q ≠ p ∧ q ≠ t

/- ### Camera paths (src/components/three/CameraMovementSystem.tsx) -/

structure CameraPose where
  position : Vec3
  target : Vec3
  deriving DecidableEq, Repr

/-- `updateWaveCamera` (CameraMovementSystem.tsx 294-331) as a function of the
cycle fraction `cycleTime ∈ [0,1)`. -/
def waveCameraFromCycle (o : MathOracle) (s : SceneSettings) (cycleTime : ℚ) : CameraPose :=
  let amplitude := orDefault s.patternsWave.cameraWaveAmplitude 1
  let baseDistance := orDefault s.cameraDistance 25
  let phase := cycleTime * o.pi * 2
  let waveAngle := phase * 2
  let x := o.cos waveAngle * baseDistance
  let z := o.sin waveAngle * baseDistance
  let baseHeight := orDefault s.cameraHeight 10
  let y := baseHeight + o.sin (phase * (12/10)) * (4 * amplitude)
  { position := ⟨x, y, z⟩, target := ⟨0, 0, 0⟩ }

/-- `updateWaveCamera` at internal time `time`; `cycleDuration = 90`. -/
def updateWaveCamera (o : MathOracle) (s : SceneSettings) (time : ℚ) : CameraPose :=
  waveCameraFromCycle o s (jsMod time 90 / 90)

/-- `updateSpiralCamera` (CameraMovementSystem.tsx 334-383) as a function of
the cycle fraction. -/
def spiralCameraFromCycle (o : MathOracle) (s : SceneSettings) (cycleTime : ℚ) : CameraPose :=
  let orbitSpeed := orDefault s.patternsSpiral.cameraOrbitSpeed 1
  let orbitRadius := orDefault s.patternsSpiral.cameraOrbitRadius 20
  let heightVariation := s.patternsSpiral.cameraHeightVariation
  let direction : ℚ := if s.patternsSpiral.cameraOrbitDirection = "counterclockwise" then -1 else 1
  let phase := cycleTime * o.pi * 2
  let orbitAngle := phase * 5 * orbitSpeed * direction
  let zoomCycle := o.sin phase * (3/10) + 7/10
  let currentRadius := orbitRadius * zoomCycle
  let x := o.cos orbitAngle * currentRadius
  let z := o.sin orbitAngle * currentRadius
  let baseHeight := orDefault s.cameraHeight 10
  let y :=
    if heightVariation then baseHeight + (o.sin (phase * 2) * 8 + o.sin (phase * 3) * 3)
    else baseHeight
  let lookAtX := o.sin phase * 2
  let lookAtY := o.cos (phase * (3/2)) * (3/2)
  { position := ⟨x, y, z⟩, target := ⟨lookAtX, lookAtY, 0⟩ }

/-- `updateSpiralCamera` at internal time `time`; `cycleDuration = 100`. -/
def updateSpiralCamera (o : MathOracle) (s : SceneSettings) (time : ℚ) : CameraPose :=
  spiralCameraFromCycle o s (jsMod time 100 / 100)

/- ### Concrete scenario definitions for witnesses and counterexamples -/

def mkPhoto (i : Nat) : Photo := ⟨"p" ++ toString i, "url"⟩

def photosN (n : Nat) : List Photo := (List.range n).map mkPhoto

open SlotState

/-- Fresh manager as `AnimationController` builds it
(`new SlotManager(settings.photoCount || 100)`), then a first frame with 101
photos. -/
def cexRun1 : SlotState := assignSlots (initSlotManager 100) (photosN 101)

/-- Second frame: all photos but `p100` were removed. -/
def cexRun2 : SlotState := assignSlots cexRun1 [mkPhoto 100]

def photoA : Photo := ⟨"a", "u"⟩
def photoB : Photo := ⟨"b", "u"⟩
def photoC : Photo := ⟨"c", "u"⟩

/-- First frame with photos `a`, `b`. -/
def c3Run1 : SlotState := assignSlots (initSlotManager 100) [photoA, photoB]

/-- Second frame: `b` removed, `c` added (list order `c`, `a`). -/
def c3Run2 : SlotState := assignSlots c3Run1 [photoC, photoA]

/-- Settings used by witness/counterexample evaluations: grid pattern,
1 photo, animation on at speed 100 so time enters the positions. -/
def cexSettings : SceneSettings :=
  { animationPattern := "grid", photoCount := 1, animationSpeed := 100,
    animationEnabled := true, photoSize := 4, photoSpacing := 0,
    photoRotation := false, gridAspectRatio := 1, wallHeight := 0,
    floorSize := 200, cameraDistance := 25, cameraHeight := 10,
    patternsWave := ⟨1⟩, patternsSpiral := ⟨1, 20, true, "clockwise"⟩ }

/-- Two consecutive cached calls: `t = 0` populates the cache (wall clock 1 ms),
`t = 1/100` lands in the same 1/60-second bucket 1 ms later. -/
def c6First : PatternState × CacheState :=
  generatePositionsCached (gridGenerate oracleId cexSettings) cexSettings 1 0 ⟨[], []⟩

def c6Second : PatternState × CacheState :=
  generatePositionsCached (gridGenerate oracleId cexSettings) cexSettings 2 (1/100) c6First.2

/- ### Basic facts about the slot-manager operations -/

theorem assignLoop_totalSlots (photos : List Photo) :
    ∀ s : SlotState, (assignLoop s photos).totalSlots = s.totalSlots := by
  induction photos with
  | nil => intro s; rfl
  | cons p rest ih =>
    intro s
    rw [assignLoop]
    split
    · exact ih s
    · split
      · exact ih s
      · exact ih _

theorem updateSlotCount_totalSlots (s : SlotState) (n : Nat) :
    (updateSlotCount s n).totalSlots = n := by
  rw [updateSlotCount]
  split
  · omega
  · rfl

/-- After any `assignSlots` call, `totalSlots` is exactly
`max(liveCount + 50, 100)` — regardless of the prior state and of the
configured `photoCount`. -/
theorem assignSlots_totalSlots (s : SlotState) (photos : List Photo) :
    (assignSlots s photos).totalSlots
      = max ((safeFilter photos).length + 50) 100 := by
  unfold assignSlots
  simp only [rebuildAvailableSlots, assignLoop_totalSlots]
  split
  · exact updateSlotCount_totalSlots _ _
  · omega

theorem assignSlots_eq_phases (s : SlotState) (photos : List Photo) :
    assignSlots s photos
      = rebuildAvailableSlots
          (assignLoop (removalPhase (capacityPhase s photos) photos) (safeFilter photos)) :=
  rfl

theorem capacityPhase_totalSlots (s : SlotState) (photos : List Photo) :
    (capacityPhase s photos).totalSlots = max ((safeFilter photos).length + 50) 100 := by
  unfold capacityPhase
  dsimp only
  split
  · exact updateSlotCount_totalSlots _ _
  · omega

/- ### Lookup and membership bridges -/

theorem hasId_iff {a : List (String × Nat)} {id : String} :
    hasId a id = true ↔ id ∈ idsOf a := by
  simp [hasId, idsOf, List.any_eq_true]

theorem lookupSlot_mem {a : List (String × Nat)} {id : String} {k : Nat}
    (h : lookupSlot a id = some k) : (id, k) ∈ a := by
  unfold lookupSlot at h
  cases hf : a.find? (fun e => e.1 = id) with
  | none => rw [hf] at h; simp at h
  | some e =>
    rw [hf] at h
    simp at h
    have hmem := List.mem_of_find?_eq_some hf
    have hpred := List.find?_some hf
    obtain ⟨e1, e2⟩ := e
    simp at hpred h
    subst hpred
    subst h
    exact hmem

theorem lookupSlot_eq_some_of_mem {a : List (String × Nat)} {id : String} {k : Nat}
    (hnd : (idsOf a).Nodup) (hmem : (id, k) ∈ a) : lookupSlot a id = some k := by
  induction a with
  | nil => simp at hmem
  | cons e rest ih =>
    have hnd' : e.1 ∉ idsOf rest ∧ (idsOf rest).Nodup := by
      simpa [idsOf, List.nodup_cons] using hnd
    rcases List.mem_cons.mp hmem with he | hrest
    · subst he
      simp [lookupSlot, List.find?]
    · have hne : e.1 ≠ id := by
        intro hc
        exact hnd'.1 (hc ▸ List.mem_map_of_mem Prod.fst hrest)
      rw [lookupSlot, List.find?_cons_of_neg _ (by simp [hne])]
      exact ih hnd'.2 hrest

theorem lookupSlot_isSome_of_mem_ids {a : List (String × Nat)} {id : String}
    (hnd : (idsOf a).Nodup) (hmem : id ∈ idsOf a) :
    (lookupSlot a id).isSome := by
  simp only [idsOf, List.mem_map] at hmem
  obtain ⟨e, he, hid⟩ := hmem
  rw [lookupSlot_eq_some_of_mem hnd (by simpa [← hid] using he)]
  rfl

/- ### The assignment loop as a pure function -/

theorem assignNew_nil_avail (mapped : List String) (ph : List Photo) :
    assignNew mapped [] ph = [] := by
  induction ph with
  | nil => rfl
  | cons p rest ih => rw [assignNew]; exact ih

theorem assignNew_nil (mapped : List String) (avail : List Nat) :
    assignNew mapped avail [] = [] := by
  cases avail <;> rfl

theorem assignNew_congr (ph : List Photo) :
    ∀ (m1 m2 : List String) (avail : List Nat), (∀ x, x ∈ m1 ↔ x ∈ m2) →
      assignNew m1 avail ph = assignNew m2 avail ph := by
  induction ph with
  | nil => intro m1 m2 avail _; rw [assignNew_nil, assignNew_nil]
  | cons p rest ih =>
    intro m1 m2 avail hm
    cases avail with
    | nil => rw [assignNew, assignNew]; exact ih m1 m2 [] hm
    | cons a as =>
      rw [assignNew, assignNew]
      by_cases hp : p.id ∈ m1
      · rw [if_pos hp, if_pos ((hm p.id).mp hp)]
        exact ih m1 m2 (a :: as) hm
      · rw [if_neg hp, if_neg (fun hc => hp ((hm p.id).mpr hc))]
        have hm' : ∀ x, x ∈ p.id :: m1 ↔ x ∈ p.id :: m2 := by
          intro x
          simp only [List.mem_cons]
          exact or_congr Iff.rfl (hm x)
        rw [ih (p.id :: m1) (p.id :: m2) as hm']

theorem assignLoop_characterization (ph : List Photo) :
    ∀ s : SlotState,
      assignLoop s ph =
        { s with
          slotAssignments := s.slotAssignments
            ++ assignNew (idsOf s.slotAssignments) s.availableSlots ph
          availableSlots := s.availableSlots.drop
            (assignNew (idsOf s.slotAssignments) s.availableSlots ph).length } := by
  induction ph with
  | nil =>
    intro s
    simp [assignLoop, assignNew_nil]
  | cons p rest ih =>
    rintro ⟨sa, sv, st⟩
    rw [assignLoop]
    dsimp only
    by_cases hp : p.id ∈ idsOf sa
    · rw [if_pos (hasId_iff.mpr hp)]
      rw [ih ⟨sa, sv, st⟩]
      have han : assignNew (idsOf sa) sv (p :: rest) = assignNew (idsOf sa) sv rest := by
        cases sv with
        | nil => rw [assignNew]
        | cons a as => rw [assignNew, if_pos hp]
      dsimp only
      rw [han]
    · rw [if_neg (by simp [hasId_iff, hp])]
      cases sv with
      | nil =>
        dsimp only
        rw [ih ⟨sa, [], st⟩, assignNew]
      | cons a as =>
        dsimp only
        rw [ih ⟨sa ++ [(p.id, a)], as, st⟩]
        dsimp only
        rw [assignNew, if_neg hp]
        have hcongr : assignNew (idsOf (sa ++ [(p.id, a)])) as rest
            = assignNew (p.id :: idsOf sa) as rest := by
          refine assignNew_congr rest _ _ as ?_
          intro x
          simp [idsOf, List.mem_append, or_comm]
        rw [hcongr]
        simp only [SlotState.mk.injEq, List.append_assoc, List.singleton_append,
          List.length_cons, List.drop_succ_cons, and_self]

theorem assignNew_ids_sub (ph : List Photo) :
    ∀ (m : List String) (avail : List Nat) (id : String),
      id ∈ idsOf (assignNew m avail ph) → id ∈ ph.map Photo.id ∧ id ∉ m := by
  induction ph with
  | nil =>
    intro m avail id h
    rw [assignNew_nil] at h
    simp [idsOf] at h
  | cons p rest ih =>
    intro m avail id h
    cases avail with
    | nil =>
      rw [assignNew] at h
      have := ih m [] id h
      exact ⟨by simp [this.1], this.2⟩
    | cons a as =>
      rw [assignNew] at h
      by_cases hp : p.id ∈ m
      · rw [if_pos hp] at h
        have := ih m (a :: as) id h
        exact ⟨by simp [this.1], this.2⟩
      · rw [if_neg hp] at h
        simp only [idsOf, List.map_cons, List.mem_cons] at h
        rcases h with h | h
        · subst h
          exact ⟨by simp, hp⟩
        · have := ih (p.id :: m) as id h
          refine ⟨by simp [this.1], fun hc => this.2 (by simp [hc])⟩

theorem assignNew_ids_nodup (ph : List Photo) :
    ∀ (m : List String) (avail : List Nat), (idsOf (assignNew m avail ph)).Nodup := by
  induction ph with
  | nil => intro m avail; rw [assignNew_nil]; simp [idsOf]
  | cons p rest ih =>
    intro m avail
    cases avail with
    | nil => rw [assignNew]; exact ih m []
    | cons a as =>
      rw [assignNew]
      by_cases hp : p.id ∈ m
      · rw [if_pos hp]; exact ih m (a :: as)
      · rw [if_neg hp]
        simp only [idsOf, List.map_cons, List.nodup_cons]
        refine ⟨fun hc => ?_, ih (p.id :: m) as⟩
        exact (assignNew_ids_sub rest _ as p.id hc).2 (by simp)

theorem assignNew_slots_take (ph : List Photo) :
    ∀ (m : List String) (avail : List Nat),
      slotsOf (assignNew m avail ph)
        = avail.take (assignNew m avail ph).length := by
  induction ph with
  | nil => intro m avail; rw [assignNew_nil]; simp [slotsOf]
  | cons p rest ih =>
    intro m avail
    cases avail with
    | nil =>
      rw [assignNew, assignNew_nil_avail]
      simp [slotsOf]
    | cons a as =>
      rw [assignNew]
      by_cases hp : p.id ∈ m
      · rw [if_pos hp]; exact ih m (a :: as)
      · rw [if_neg hp]
        simp only [slotsOf, List.map_cons, List.length_cons, List.take_succ_cons]
        rw [← slotsOf, ih (p.id :: m) as]

theorem assignNew_length_le (ph : List Photo) :
    ∀ (m : List String) (avail : List Nat),
      (assignNew m avail ph).length ≤ avail.length := by
  induction ph with
  | nil => intro m avail; rw [assignNew_nil]; simp
  | cons p rest ih =>
    intro m avail
    cases avail with
    | nil => rw [assignNew, assignNew_nil_avail]; simp
    | cons a as =>
      rw [assignNew]
      by_cases hp : p.id ∈ m
      · rw [if_pos hp]; exact ih m (a :: as)
      · rw [if_neg hp]
        simpa using Nat.succ_le_succ (ih (p.id :: m) as)

theorem assignNew_total (ph : List Photo) :
    ∀ (m : List String) (avail : List Nat),
      ((ph.map Photo.id).filter (fun id => id ∉ m)).toFinset.card ≤ avail.length →
      ∀ id ∈ ph.map Photo.id, id ∈ m ∨ id ∈ idsOf (assignNew m avail ph) := by
  induction ph with
  | nil => intro m avail _ id hid; simp at hid
  | cons p rest ih =>
    intro m avail hbud id hid
    rw [List.map_cons] at hid
    by_cases hp : p.id ∈ m
    · have hfil : ((p :: rest).map Photo.id).filter (fun id => id ∉ m)
          = (rest.map Photo.id).filter (fun id => id ∉ m) := by
        simp [List.filter, hp]
      rcases List.mem_cons.mp hid with hidp | hidr
      · exact Or.inl (hidp ▸ hp)
      · have han : assignNew m avail (p :: rest) = assignNew m avail rest := by
          cases avail with
          | nil => rw [assignNew]
          | cons a as => rw [assignNew, if_pos hp]
        rw [han]
        exact ih m avail (by rw [← hfil]; exact hbud) id hidr
    · cases avail with
      | nil =>
        exfalso
        have hpin : p.id ∈ ((p :: rest).map Photo.id).filter (fun id => id ∉ m) := by
          simp [List.mem_filter, hp]
        have : 0 < (((p :: rest).map Photo.id).filter
            (fun id => id ∉ m)).toFinset.card := by
          refine Finset.card_pos.mpr ⟨p.id, ?_⟩
          simpa [List.mem_toFinset] using hpin
        simp only [List.length_nil, Nat.le_zero] at hbud
        omega
      | cons a as =>
        rw [assignNew, if_neg hp]
        rcases List.mem_cons.mp hid with hidp | hidr
        · refine Or.inr ?_
          rw [hidp]
          simp [idsOf]
        · have hfil : ((p :: rest).map Photo.id).filter (fun id => id ∉ m)
              = p.id :: ((rest.map Photo.id).filter (fun id => id ∉ m)) := by
            simp [List.filter, hp]
          have hset : ((rest.map Photo.id).filter (fun id => id ∉ p.id :: m)).toFinset
              = ((rest.map Photo.id).filter (fun id => id ∉ m)).toFinset.erase p.id := by
            ext x
            simp only [List.mem_toFinset, List.mem_filter, Finset.mem_erase,
              List.mem_cons, decide_eq_true_eq]
            constructor
            · rintro ⟨hx, hnx⟩
              push_neg at hnx
              exact ⟨hnx.1, hx, hnx.2⟩
            · rintro ⟨hne, hx, hnm⟩
              refine ⟨hx, ?_⟩
              push_neg
              exact ⟨hne, hnm⟩
          have hbud' : ((rest.map Photo.id).filter
              (fun id => id ∉ p.id :: m)).toFinset.card ≤ as.length := by
            rw [hset]
            have hcard : (((p :: rest).map Photo.id).filter
                (fun id => id ∉ m)).toFinset.card
                = (insert p.id ((rest.map Photo.id).filter
                    (fun id => id ∉ m)).toFinset).card := by
              rw [hfil]
              simp [List.toFinset_cons]
            rw [hcard] at hbud
            simp only [List.length_cons] at hbud
            by_cases hpS : p.id ∈ ((rest.map Photo.id).filter (fun id => id ∉ m)).toFinset
            · rw [Finset.insert_eq_self.mpr hpS] at hbud
              have := Finset.card_erase_of_mem hpS
              omega
            · rw [Finset.erase_eq_of_not_mem hpS]
              rw [Finset.card_insert_of_not_mem hpS] at hbud
              omega
          rcases ih (p.id :: m) as hbud' id hidr with hin | hin
          · rcases List.mem_cons.mp hin with hidp | hinm
            · exact Or.inr (by rw [hidp]; simp [idsOf])
            · exact Or.inl hinm
          · refine Or.inr ?_
            rw [show idsOf ((p.id, a) :: assignNew (p.id :: m) as rest)
                = p.id :: idsOf (assignNew (p.id :: m) as rest) from rfl]
            exact List.mem_cons_of_mem _ hin

/- ### Well-formedness preservation -/

theorem updateSlotCount_WF {s : SlotState} (h : WF s) (n : Nat) :
    WF (updateSlotCount s n) := by
  obtain ⟨h1, h2, h3, h4⟩ := h
  unfold updateSlotCount
  split
  · exact ⟨h1, h2, h3, h4⟩
  · refine ⟨?_, ?_, ?_, rfl⟩
    · exact ((List.filter_sublist _).map Prod.fst).nodup h1
    · exact ((List.filter_sublist _).map Prod.snd).nodup h2
    · intro e he
      have := (List.mem_filter.mp he).2
      simpa using this

theorem initSlotManager_WF (n : Nat) : WF (initSlotManager n) := by
  unfold initSlotManager
  refine updateSlotCount_WF ⟨?_, ?_, ?_, ?_⟩ n <;> simp [idsOf, slotsOf]

theorem updateSlotCount_mem {s : SlotState} {id : String} {k : Nat}
    (hmem : (id, k) ∈ s.slotAssignments) (hk : k < n) :
    (id, k) ∈ (updateSlotCount s n).slotAssignments := by
  unfold updateSlotCount
  split
  · exact hmem
  · exact List.mem_filter.mpr ⟨hmem, by simpa using hk⟩

theorem capacityPhase_WF {s : SlotState} (h : WF s) (photos : List Photo) :
    WF (capacityPhase s photos) := by
  unfold capacityPhase
  dsimp only
  split
  · exact updateSlotCount_WF h _
  · exact h

theorem capacityPhase_mem {s : SlotState} {photos : List Photo} {id : String} {k : Nat}
    (hmem : (id, k) ∈ s.slotAssignments)
    (hk : k < max ((safeFilter photos).length + 50) 100) :
    (id, k) ∈ (capacityPhase s photos).slotAssignments := by
  unfold capacityPhase
  dsimp only
  split
  · exact updateSlotCount_mem hmem hk
  · exact hmem

theorem removalPhase_availableSlots (s : SlotState) (photos : List Photo) :
    (removalPhase s photos).availableSlots = s.availableSlots := rfl

theorem removalPhase_totalSlots (s : SlotState) (photos : List Photo) :
    (removalPhase s photos).totalSlots = s.totalSlots := rfl

theorem removalPhase_sublist (s : SlotState) (photos : List Photo) :
    (removalPhase s photos).slotAssignments.Sublist s.slotAssignments :=
  List.filter_sublist _

/-- The assignments after a full `assignSlots` call: survivors of the capacity
eviction and the removal phase, followed by the fresh bindings taken in order
from the stale free list. -/
theorem assignSlots_assignments (s : SlotState) (photos : List Photo) :
    (assignSlots s photos).slotAssignments
      = (removalPhase (capacityPhase s photos) photos).slotAssignments
        ++ assignNew
            (idsOf (removalPhase (capacityPhase s photos) photos).slotAssignments)
            (capacityPhase s photos).availableSlots
            (safeFilter photos) := by
  rw [assignSlots_eq_phases, assignLoop_characterization]
  rfl

theorem assignSlots_WF {s : SlotState} (photos : List Photo) (h : WF s) :
    WF (assignSlots s photos) := by
  have hW1 := capacityPhase_WF h photos
  obtain ⟨h1, h2, h3, h4⟩ := hW1
  have hsub := removalPhase_sublist (capacityPhase s photos) photos
  have hids2 : (idsOf (removalPhase (capacityPhase s photos) photos).slotAssignments).Nodup :=
    (hsub.map Prod.fst).nodup h1
  have hslots2 : (slotsOf (removalPhase (capacityPhase s photos) photos).slotAssignments).Nodup :=
    (hsub.map Prod.snd).nodup h2
  have havail : (capacityPhase s photos).availableSlots
      = (List.range (capacityPhase s photos).totalSlots).filter
          (fun i => i ∉ slotsOf (capacityPhase s photos).slotAssignments) := h4
  have havail_nodup : (capacityPhase s photos).availableSlots.Nodup := by
    rw [havail]
    exact (List.nodup_range _).filter _
  have havail_not_slot : ∀ a ∈ (capacityPhase s photos).availableSlots,
      a ∉ slotsOf (capacityPhase s photos).slotAssignments := by
    intro a ha
    rw [havail] at ha
    simpa using (List.mem_filter.mp ha).2
  have havail_lt : ∀ a ∈ (capacityPhase s photos).availableSlots,
      a < (capacityPhase s photos).totalSlots := by
    intro a ha
    rw [havail] at ha
    simpa using List.mem_range.mp (List.mem_filter.mp ha).1
  rw [assignSlots_eq_phases, assignLoop_characterization]
  set s2 := removalPhase (capacityPhase s photos) photos with hs2def
  refine ⟨?_, ?_, ?_, rfl⟩
  · show (idsOf (s2.slotAssignments ++ assignNew (idsOf s2.slotAssignments)
        s2.availableSlots (safeFilter photos))).Nodup
    rw [show ∀ x y, idsOf (x ++ y) = idsOf x ++ idsOf y from fun x y => List.map_append _ x y]
    refine List.Nodup.append hids2 (assignNew_ids_nodup _ _ _) ?_
    intro idv hid1 hid2
    exact (assignNew_ids_sub _ _ _ idv hid2).2 hid1
  · show (slotsOf (s2.slotAssignments ++ assignNew (idsOf s2.slotAssignments)
        s2.availableSlots (safeFilter photos))).Nodup
    rw [show ∀ x y, slotsOf (x ++ y) = slotsOf x ++ slotsOf y from fun x y => List.map_append _ x y]
    rw [assignNew_slots_take]
    refine List.Nodup.append hslots2 ((List.take_sublist _ _).nodup ?_) ?_
    · exact (removalPhase_availableSlots _ photos ▸ havail_nodup)
    · intro a ha1 ha2
      have ha3 : a ∈ (capacityPhase s photos).availableSlots :=
        (List.take_sublist _ _).subset (by exact ha2)
      refine havail_not_slot a ha3 ?_
      exact (hsub.map Prod.snd).subset ha1
  · intro e he
    rcases List.mem_append.mp he with he2 | henew
    · have : e.2 < (capacityPhase s photos).totalSlots := h3 e (hsub.subset he2)
      simpa [assignLoop_totalSlots] using this
    · have hslot : e.2 ∈ slotsOf (assignNew (idsOf s2.slotAssignments)
          s2.availableSlots (safeFilter photos)) := List.mem_map_of_mem Prod.snd henew
      rw [assignNew_slots_take] at hslot
      have ha3 : e.2 ∈ (capacityPhase s photos).availableSlots :=
        (List.take_sublist _ _).subset hslot
      have := havail_lt _ ha3
      simpa [assignLoop_totalSlots] using this

/-- Single-call slot preservation: a live photo keeps its binding provided its
slot survives the capacity retarget `max(liveCount + 50, 100)`. -/
theorem assignSlots_keeps {s : SlotState} {photos : List Photo} {id : String} {k : Nat}
    (h : WF s) (hl : lookupSlot s.slotAssignments id = some k)
    (hlive : id ∈ (safeFilter photos).map Photo.id)
    (hcap : k < max ((safeFilter photos).length + 50) 100) :
    lookupSlot (assignSlots s photos).slotAssignments id = some k := by
  have hmem : (id, k) ∈ s.slotAssignments := lookupSlot_mem hl
  have hmem1 : (id, k) ∈ (capacityPhase s photos).slotAssignments :=
    capacityPhase_mem hmem hcap
  have hmem2 : (id, k) ∈ (removalPhase (capacityPhase s photos) photos).slotAssignments :=
    List.mem_filter.mpr ⟨hmem1, by simpa using hlive⟩
  have hres : (id, k) ∈ (assignSlots s photos).slotAssignments := by
    rw [assignSlots_assignments]
    exact List.mem_append_left _ hmem2
  exact lookupSlot_eq_some_of_mem (assignSlots_WF photos h).1 hres

/-- Single-call totality under the free-pool budget: when the stale free list
has room for every newly appearing id, every live id ends up mapped. -/
theorem assignSlots_total {s : SlotState} {photos : List Photo} (h : WF s)
    (hbud : ((((safeFilter photos).map Photo.id).filter
        (fun id => id ∉ idsOf (removalPhase (capacityPhase s photos) photos).slotAssignments)).toFinset.card
        ≤ (capacityPhase s photos).availableSlots.length)) :
    ∀ id ∈ (safeFilter photos).map Photo.id,
      (lookupSlot (assignSlots s photos).slotAssignments id).isSome := by
  intro id hid
  apply lookupSlot_isSome_of_mem_ids (assignSlots_WF photos h).1
  rw [assignSlots_assignments]
  rw [show ∀ x y, idsOf (x ++ y) = idsOf x ++ idsOf y from fun x y => List.map_append _ x y]
  have := assignNew_total (safeFilter photos)
    (idsOf (removalPhase (capacityPhase s photos) photos).slotAssignments)
    (capacityPhase s photos).availableSlots hbud id hid
  rcases this with hin | hin
  · exact List.mem_append_left _ hin
  · exact List.mem_append_right _ hin

/-- The domain of the returned map contains only live ids. -/
theorem assignSlots_domain {s : SlotState} {photos : List Photo} {id : String}
    (hid : id ∈ idsOf (assignSlots s photos).slotAssignments) :
    id ∈ (safeFilter photos).map Photo.id := by
  rw [assignSlots_assignments,
    show ∀ x y, idsOf (x ++ y) = idsOf x ++ idsOf y from fun x y => List.map_append _ x y] at hid
  rcases List.mem_append.mp hid with hin | hin
  · simp only [idsOf, List.mem_map] at hin
    obtain ⟨e, he, hide⟩ := hin
    have := (List.mem_filter.mp he).2
    rw [← hide]
    simpa using this
  · exact (assignNew_ids_sub _ _ _ id hin).1

theorem length_le_of_nodup_lt {l : List Nat} {T : Nat} (hnd : l.Nodup)
    (hlt : ∀ a ∈ l, a < T) : l.length ≤ T := by
  have h1 : l.toFinset.card = l.length := List.toFinset_card_of_nodup hnd
  have h2 : l.toFinset ⊆ Finset.range T := by
    intro a ha
    rw [List.mem_toFinset] at ha
    exact Finset.mem_range.mpr (hlt a ha)
  have := Finset.card_le_card h2
  simpa [h1, Finset.card_range] using this

/- ### Claim theorems: slot manager (C1, C2, C3, C9) -/

/-- C1 (counterexample): `p100` is live in both frames, holds slot 100 after
the first `assignSlots`, and after the second call — where the capacity
shrink to `max(1+50,100) = 100` evicts slot 100 — it has NO slot at all: the
claimed lifetime slot stability fails. -/
theorem slot_stability_counterexample :
    lookupSlot cexRun1.slotAssignments "p100" = some 100 ∧
    "p100" ∈ (safeFilter (photosN 101)).map Photo.id ∧
    "p100" ∈ (safeFilter [mkPhoto 100]).map Photo.id ∧
    lookupSlot cexRun2.slotAssignments "p100" = none := by
  decide

/-- C1 (amended): a photo id that is live in every frame of a call sequence
keeps its slot index `k` throughout, PROVIDED `k` stays below each call's
recomputed capacity `max(liveCount + 50, 100)`; only the capacity-shrink
eviction of `updateSlotCount` can break lifetime stability. -/
theorem slot_stability_amended (s0 : SlotState) (hWF : WF s0) (id : String) (k : Nat)
    (h0 : lookupSlot s0.slotAssignments id = some k)
    (lists : List (List Photo))
    (hlive : ∀ l ∈ lists, id ∈ (safeFilter l).map Photo.id)
    (hcap : ∀ l ∈ lists, k < max ((safeFilter l).length + 50) 100) :
    lookupSlot (lists.foldl assignSlots s0).slotAssignments id = some k := by
  induction lists generalizing s0 with
  | nil => exact h0
  | cons l rest ih =>
    rw [List.foldl_cons]
    exact ih (assignSlots s0 l) (assignSlots_WF l hWF)
      (assignSlots_keeps hWF h0 (hlive l (by simp)) (hcap l (by simp)))
      (fun l' hl' => hlive l' (by simp [hl']))
      (fun l' hl' => hcap l' (by simp [hl']))

theorem slot_stability_amended_witness :
    WF c3Run1 ∧ lookupSlot c3Run1.slotAssignments "a" = some 0 ∧
    (∀ l ∈ [[photoA]], "a" ∈ (safeFilter l).map Photo.id) ∧
    (∀ l ∈ [[photoA]], 0 < max ((safeFilter l).length + 50) 100) ∧
    lookupSlot (([[photoA]] : List (List Photo)).foldl assignSlots c3Run1).slotAssignments "a"
      = some 0 :=
  ⟨by decide, by decide, by decide, by decide,
    slot_stability_amended c3Run1 (by decide) "a" 0 (by decide) [[photoA]]
      (by decide) (by decide)⟩

/-- C2 (counterexample): in the second frame of the `cexRun` scenario the live
id `p100` is returned with no slot: mass removal frees slots only after the
assignment phase, so "each live photo id gets exactly one slot" fails. -/
theorem mapping_wellformed_counterexample :
    "p100" ∈ (safeFilter [mkPhoto 100]).map Photo.id ∧
    (lookupSlot cexRun2.slotAssignments "p100").isSome = false ∧
    cexRun2.totalSlots = 100 ∧ cexRun2.slotAssignments.length = 0 := by
  decide

/-- C2 (amended): after every `assignSlots` call from a well-formed state:
ids are bound at most once, no two ids share a slot, every slot is below
`totalSlots`, at most `totalSlots` slots are occupied, and only live ids are
bound; every live id IS bound provided the stale free pool (rebuilt before
this call's removals) has room for all newly appearing ids — without that
budget a live id can stay unmapped for one frame. -/
theorem mapping_wellformed_amended (s : SlotState) (photos : List Photo) (hWF : WF s) :
    (idsOf (assignSlots s photos).slotAssignments).Nodup ∧
    (slotsOf (assignSlots s photos).slotAssignments).Nodup ∧
    (∀ e ∈ (assignSlots s photos).slotAssignments, e.2 < (assignSlots s photos).totalSlots) ∧
    (assignSlots s photos).slotAssignments.length ≤ (assignSlots s photos).totalSlots ∧
    (∀ id ∈ idsOf (assignSlots s photos).slotAssignments,
      id ∈ (safeFilter photos).map Photo.id) ∧
    (((((safeFilter photos).map Photo.id).filter
        (fun id => id ∉ idsOf (removalPhase (capacityPhase s photos) photos).slotAssignments)).toFinset.card
        ≤ (capacityPhase s photos).availableSlots.length) →
      ∀ id ∈ (safeFilter photos).map Photo.id,
        (lookupSlot (assignSlots s photos).slotAssignments id).isSome) := by
  obtain ⟨w1, w2, w3, _⟩ := assignSlots_WF photos hWF
  refine ⟨w1, w2, w3, ?_, ?_, ?_⟩
  · have hlen : (slotsOf (assignSlots s photos).slotAssignments).length
        = (assignSlots s photos).slotAssignments.length := List.length_map _ _
    rw [← hlen]
    refine length_le_of_nodup_lt w2 ?_
    intro a ha
    simp only [slotsOf, List.mem_map] at ha
    obtain ⟨e, he, rfl⟩ := ha
    exact w3 e he
  · intro id hid
    exact assignSlots_domain hid
  · intro hbud
    exact assignSlots_total hWF hbud

theorem mapping_wellformed_amended_witness :
    WF (initSlotManager 100) ∧
    (lookupSlot (assignSlots (initSlotManager 100) [photoA]).slotAssignments "a").isSome :=
  ⟨by decide,
    (mapping_wellformed_amended (initSlotManager 100) [photoA] (by decide)).2.2.2.2.2
      (by decide) "a" (by decide)⟩

/-- C3 (counterexample): frame 1 assigns `a↦0`, `b↦1`; frame 2 removes `b`
(freeing slot 1) and adds `c`.  The claim says `c` gets the lowest slot free
at that moment — slot 1 — but the code hands out slot 2 from the stale free
list; slot 1 stays unoccupied this frame. -/
theorem reconciliation_lowest_free_counterexample :
    lookupSlot c3Run2.slotAssignments "c" = some 2 ∧
    (1 : Nat) ∉ slotsOf c3Run2.slotAssignments ∧
    1 < c3Run2.totalSlots := by
  decide

/-- C3 (amended): `assignSlots` is removal-then-assignment as claimed, but the
free pool used by the assignment phase is the ascending list of slots that
were unoccupied BEFORE this call's removal phase (as rebuilt at the end of
the previous call or by the capacity retarget); new ids take its entries in
list order, so each gets the lowest slot of that stale pool, and slots freed
by this call's removals only enter the pool afterwards. -/
theorem reconciliation_order_amended (s : SlotState) (photos : List Photo) (hWF : WF s) :
    assignSlots s photos
      = rebuildAvailableSlots
          (assignLoop (removalPhase (capacityPhase s photos) photos) (safeFilter photos)) ∧
    (removalPhase (capacityPhase s photos) photos).availableSlots
      = (List.range (capacityPhase s photos).totalSlots).filter
          (fun i => i ∉ slotsOf (capacityPhase s photos).slotAssignments) ∧
    List.Pairwise (· < ·) (removalPhase (capacityPhase s photos) photos).availableSlots ∧
    (assignSlots s photos).slotAssignments
      = (removalPhase (capacityPhase s photos) photos).slotAssignments
        ++ assignNew
            (idsOf (removalPhase (capacityPhase s photos) photos).slotAssignments)
            (removalPhase (capacityPhase s photos) photos).availableSlots
            (safeFilter photos) ∧
    slotsOf (assignNew
        (idsOf (removalPhase (capacityPhase s photos) photos).slotAssignments)
        (removalPhase (capacityPhase s photos) photos).availableSlots
        (safeFilter photos))
      = (removalPhase (capacityPhase s photos) photos).availableSlots.take
          (assignNew
            (idsOf (removalPhase (capacityPhase s photos) photos).slotAssignments)
            (removalPhase (capacityPhase s photos) photos).availableSlots
            (safeFilter photos)).length := by
  have hcwf := capacityPhase_WF hWF photos
  refine ⟨assignSlots_eq_phases s photos, ?_, ?_, ?_, assignNew_slots_take _ _ _⟩
  · rw [removalPhase_availableSlots]
    exact hcwf.2.2.2
  · rw [removalPhase_availableSlots, hcwf.2.2.2]
    exact (List.pairwise_lt_range _).filter _
  · exact assignSlots_assignments s photos

theorem reconciliation_order_amended_witness :
    WF (initSlotManager 100) ∧
    assignSlots (initSlotManager 100) [photoA]
      = rebuildAvailableSlots
          (assignLoop
            (removalPhase (capacityPhase (initSlotManager 100) [photoA]) [photoA])
            (safeFilter [photoA])) :=
  ⟨by decide, (reconciliation_order_amended (initSlotManager 100) [photoA] (by decide)).1⟩

/-- C9 (counterexample): with 451 live photos, totalSlots becomes 501 > 500 —
`SlotManager` has no 500 bound (only the pattern generators clamp at 500),
and the value ignores the configured capacity entirely. -/
theorem totalSlots_counterexample :
    (assignSlots (initSlotManager 100) (photosN 451)).totalSlots = 501 ∧
    ¬ ((assignSlots (initSlotManager 100) (photosN 451)).totalSlots ≤ 500) := by
  have h1 : (safeFilter (photosN 451)).length = 451 := by
    rw [safeFilter, List.filter_eq_self.mpr ?_]
    · simp [photosN]
    · intro p hp
      simp only [photosN, List.mem_map] at hp
      obtain ⟨i, _, rfl⟩ := hp
      simp only [mkPhoto, ne_eq, decide_eq_true_eq]
      intro h
      have hlen := congrArg String.length h
      simp [String.length_append] at hlen
      exact absurd hlen.1 (by decide)
  have h2 := assignSlots_totalSlots (initSlotManager 100) (photosN 451)
  rw [h1] at h2
  constructor
  · rw [h2]
    omega
  · rw [h2]
    omega

/-- C9 (amended): after every reconciliation, `totalSlots` equals
`max(liveCount + 50, 100)` — headroom of 50 over the live count with a floor
of 100 — for ANY prior state; it is not derived from the configured
`photoCount` and is not bounded by 500. -/
theorem totalSlots_tracks_live_count (s : SlotState) (photos : List Photo) :
    (assignSlots s photos).totalSlots = max ((safeFilter photos).length + 50) 100 :=
  assignSlots_totalSlots s photos

/- ### Claim theorems: smoothing (C4) -/

/-- C4 (counterexample): with current = target (distance 0 ≤ threshold) the
smoothing branch returns the point itself, which is not strictly between
`P` and `T` — the claim's "strictly between" needs `P ≠ T`. -/
theorem teleport_vs_smooth_counterexample :
    distSq ⟨0, 0, 0⟩ ⟨0, 0, 0⟩ ≤ TELEPORT_THRESHOLD ^ 2 ∧
    (smoothStep ⟨0, 0, 0⟩ ⟨0, 0, 0⟩ ⟨0, 0, 0⟩ ⟨0, 0, 0⟩).1 = ⟨0, 0, 0⟩ ∧
    ¬ StrictlyBetween ⟨0, 0, 0⟩ ⟨0, 0, 0⟩
        (smoothStep ⟨0, 0, 0⟩ ⟨0, 0, 0⟩ ⟨0, 0, 0⟩ ⟨0, 0, 0⟩).1 := by
  have hstep : (smoothStep ⟨0, 0, 0⟩ ⟨0, 0, 0⟩ ⟨0, 0, 0⟩ ⟨0, 0, 0⟩).1
      = (⟨0, 0, 0⟩ : Vec3) := by
    unfold smoothStep
    rw [if_neg (by norm_num [distSq, TELEPORT_THRESHOLD])]
    unfold lerpVec POSITION_SMOOTHING
    norm_num
  refine ⟨by norm_num [distSq, TELEPORT_THRESHOLD], hstep, ?_⟩
  rintro ⟨α, -, -, -, hqp, -⟩
  exact hqp hstep

/-- C4 (amended): one smoothing tick teleports (position and rotation snap to
the target) exactly when the squared distance exceeds 30²; otherwise, WHEN
`P ≠ T`, the new position is the fixed-fraction 0.1 lerp and lies strictly
between `P` and `T`, and each Euler rotation axis blends independently by the
fixed fraction 0.1 — none of it scaled by elapsed time. -/
theorem teleport_vs_smooth_amended (cur curRot target targetRot : Vec3) :
    (TELEPORT_THRESHOLD ^ 2 < distSq cur target →
      smoothStep cur curRot target targetRot = (target, targetRot)) ∧
    (distSq cur target ≤ TELEPORT_THRESHOLD ^ 2 → cur ≠ target →
      StrictlyBetween cur target (smoothStep cur curRot target targetRot).1) ∧
    (distSq cur target ≤ TELEPORT_THRESHOLD ^ 2 →
      (smoothStep cur curRot target targetRot).2
        = ⟨curRot.x + (targetRot.x - curRot.x) * ROTATION_SMOOTHING,
           curRot.y + (targetRot.y - curRot.y) * ROTATION_SMOOTHING,
           curRot.z + (targetRot.z - curRot.z) * ROTATION_SMOOTHING⟩) := by
  refine ⟨?_, ?_, ?_⟩
  · intro h
    unfold smoothStep
    rw [if_pos h]
  · intro h hne
    have hstep : (smoothStep cur curRot target targetRot).1
        = lerpVec cur target POSITION_SMOOTHING := by
      unfold smoothStep
      rw [if_neg (not_lt.mpr h)]
    rw [hstep]
    obtain ⟨cx, cy, cz⟩ := cur
    obtain ⟨tx, ty, tz⟩ := target
    refine ⟨POSITION_SMOOTHING, by norm_num [POSITION_SMOOTHING],
      by norm_num [POSITION_SMOOTHING], rfl, ?_, ?_⟩
    · intro hq
      apply hne
      simp only [lerpVec, POSITION_SMOOTHING, Vec3.mk.injEq] at hq ⊢
      obtain ⟨h1, h2, h3⟩ := hq
      refine ⟨by linarith, by linarith, by linarith⟩
    · intro hq
      apply hne
      simp only [lerpVec, POSITION_SMOOTHING, Vec3.mk.injEq] at hq ⊢
      obtain ⟨h1, h2, h3⟩ := hq
      refine ⟨by linarith, by linarith, by linarith⟩
  · intro h
    unfold smoothStep
    rw [if_neg (not_lt.mpr h)]

theorem teleport_vs_smooth_witness :
    TELEPORT_THRESHOLD ^ 2 < distSq ⟨0, 0, 0⟩ ⟨0, 0, 40⟩ ∧
    smoothStep ⟨0, 0, 0⟩ ⟨5, 6, 7⟩ ⟨0, 0, 40⟩ ⟨1, 2, 3⟩ = (⟨0, 0, 40⟩, ⟨1, 2, 3⟩) ∧
    distSq ⟨0, 0, 0⟩ ⟨10, 0, 0⟩ ≤ TELEPORT_THRESHOLD ^ 2 ∧
    (⟨0, 0, 0⟩ : Vec3) ≠ ⟨10, 0, 0⟩ ∧
    StrictlyBetween ⟨0, 0, 0⟩ ⟨10, 0, 0⟩
      (smoothStep ⟨0, 0, 0⟩ ⟨0, 0, 0⟩ ⟨10, 0, 0⟩ ⟨0, 0, 0⟩).1 :=
  ⟨by norm_num [distSq, TELEPORT_THRESHOLD],
   (teleport_vs_smooth_amended ⟨0, 0, 0⟩ ⟨5, 6, 7⟩ ⟨0, 0, 40⟩ ⟨1, 2, 3⟩).1
     (by norm_num [distSq, TELEPORT_THRESHOLD]),
   by norm_num [distSq, TELEPORT_THRESHOLD],
   by simp [Vec3.mk.injEq],
   (teleport_vs_smooth_amended ⟨0, 0, 0⟩ ⟨0, 0, 0⟩ ⟨10, 0, 0⟩ ⟨0, 0, 0⟩).2.1
     (by norm_num [distSq, TELEPORT_THRESHOLD])
     (by simp [Vec3.mk.injEq])⟩

/- ### Claim theorems: camera perfect loops (C7) -/

/-- C7: the Wave camera path at internal time 0 and at its cycle duration 90,
and the Spiral path at 0 and 100, produce identical position AND look-at
target, for every settings value (every amplitude, orbit speed/radius,
direction and height-variation option) and every math oracle — the modulo
wraps the phase to exactly 0 at both ends, so the loop is exactly seamless. -/
theorem camera_perfect_loop (o : MathOracle) (s : SceneSettings) :
    updateWaveCamera o s 0 = updateWaveCamera o s 90 ∧
    updateSpiralCamera o s 0 = updateSpiralCamera o s 100 := by
  have h0a : jsMod 0 90 = 0 := by norm_num [jsMod, ratTrunc]
  have h90 : jsMod 90 90 = 0 := by norm_num [jsMod, ratTrunc]
  have h0b : jsMod 0 100 = 0 := by norm_num [jsMod, ratTrunc]
  have h100 : jsMod 100 100 = 0 := by norm_num [jsMod, ratTrunc]
  constructor
  · unfold updateWaveCamera
    rw [h0a, h90]
  · unfold updateSpiralCamera
    rw [h0b, h100]

/- ### Generator output shapes -/

theorem gridGenerate_positions_length (o : MathOracle) (s : SceneSettings) (t : ℚ) :
    (gridGenerate o s t).positions.length = min s.photoCount 500 := by
  unfold gridGenerate
  simp [List.length_map, List.length_range]

theorem gridGenerate_rotations_length (o : MathOracle) (s : SceneSettings) (t : ℚ) :
    (gridGenerate o s t).rotations.length = min s.photoCount 500 := by
  unfold gridGenerate
  simp [List.length_map, List.length_range]

theorem waveGenerate_positions_length (o : MathOracle) (s : SceneSettings) (t : ℚ) :
    (waveGenerate o s t).positions.length = min s.photoCount 500 := by
  unfold waveGenerate
  simp [List.length_map, List.length_range]

theorem waveGenerate_rotations_length (o : MathOracle) (s : SceneSettings) (t : ℚ) :
    (waveGenerate o s t).rotations.length = min s.photoCount 500 := by
  unfold waveGenerate
  simp [List.length_map, List.length_range]

theorem spiralGenerate_positions_length (o : MathOracle) (s : SceneSettings) (t : ℚ) :
    (spiralGenerate o s t).positions.length = min s.photoCount 500 := by
  unfold spiralGenerate
  simp [List.length_map, List.length_range]

theorem spiralGenerate_rotations_length (o : MathOracle) (s : SceneSettings) (t : ℚ) :
    (spiralGenerate o s t).rotations.length = min s.photoCount 500 := by
  unfold spiralGenerate
  simp [List.length_map, List.length_range]

/- ### Claim theorems: unknown-pattern fallback (C5) -/

/-- C5: for every pattern-type string outside {grid, float, wave, spiral},
`createPattern` fires the fallback `console.warn` and constructs a
`GridPattern`, so generation is total (no exception in the embedding), equals
what a `GridPattern` returns for the same settings, and — for
`photoCount ≤ 500` — yields `photoCount` positions and rotations. -/
theorem unknown_pattern_fallback (ty : String) (o : MathOracle) (s : SceneSettings)
    (fs : FloatState) (t : ℚ)
    (h1 : ty ≠ "grid") (h2 : ty ≠ "float") (h3 : ty ≠ "wave") (h4 : ty ≠ "spiral")
    (hc : s.photoCount ≤ 500) :
    (createPatternKind ty).warned = true ∧
    generateForKind o s fs t (createPatternKind ty).kind = gridGenerate o s t ∧
    (generateForKind o s fs t (createPatternKind ty).kind).positions.length
      = s.photoCount ∧
    (generateForKind o s fs t (createPatternKind ty).kind).rotations.length
      = s.photoCount := by
  have hk : createPatternKind ty = ⟨.grid, true⟩ := by
    unfold createPatternKind
    rw [if_neg h1, if_neg h2, if_neg h3, if_neg h4]
  rw [hk]
  refine ⟨rfl, rfl, ?_, ?_⟩
  · show (gridGenerate o s t).positions.length = s.photoCount
    rw [gridGenerate_positions_length]
    omega
  · show (gridGenerate o s t).rotations.length = s.photoCount
    rw [gridGenerate_rotations_length]
    omega

theorem unknown_pattern_fallback_witness :
    ("unknown" ≠ "grid") ∧ ("unknown" ≠ "float") ∧ ("unknown" ≠ "wave") ∧
    ("unknown" ≠ "spiral") ∧ cexSettings.photoCount ≤ 500 ∧
    (createPatternKind "unknown").warned = true ∧
    generateForKind oracleId cexSettings (floatInit cexSettings) 0
        (createPatternKind "unknown").kind
      = gridGenerate oracleId cexSettings 0 :=
  ⟨by decide, by decide, by decide, by decide, by decide,
   (unknown_pattern_fallback "unknown" oracleId cexSettings (floatInit cexSettings) 0
     (by decide) (by decide) (by decide) (by decide) (by decide)).1,
   (unknown_pattern_fallback "unknown" oracleId cexSettings (floatInit cexSettings) 0
     (by decide) (by decide) (by decide) (by decide) (by decide)).2.1⟩

/- ### FloatPattern scatter memoisation -/

theorem pureScatter_length (o : MathOracle) (n : Nat) (f : ℚ) :
    (pureScatter o n f).length = n := by
  unfold pureScatter
  rw [List.length_map, List.length_range]

theorem floatInv_reachable {o : MathOracle} {st : FloatState}
    (h : FloatReachable o st) : FloatInv o st := by
  induction h with
  | init s => exact Or.inl rfl
  | update st s hr ih =>
    unfold floatUpdateSettings
    split
    · exact Or.inl rfl
    · rename_i hcond
      push_neg at hcond
      rcases ih with hbase | ⟨hf, hc, hps⟩
      · exact Or.inl hbase
      · refine Or.inr ⟨?_, ?_, hps⟩
        · rw [show ({ st with settings := s } : FloatState).lastFloorSize
              = st.lastFloorSize from rfl, hf]
          unfold orDefault
          rw [hcond.1]
        · rw [show ({ st with settings := s } : FloatState).lastPhotoCount
              = st.lastPhotoCount from rfl, hc]
          rw [hcond.2]
  | generate st t hr ih =>
    unfold floatGenerate
    dsimp only
    unfold generateDynamicBasePositions
    split
    · exact ih
    · exact Or.inr ⟨rfl, rfl, rfl⟩

/-- Main memoisation fact: through any reachable instance history,
`generateDynamicBasePositions` at the current resolved inputs returns exactly
the pure seeded scatter of those inputs. -/
theorem generateDynamicBase_pure {o : MathOracle} {st : FloatState}
    (h : FloatReachable o st) :
    (generateDynamicBasePositions o st (min st.settings.photoCount 500)
        (orDefault st.settings.floorSize 200)).1
      = pureScatter o (min st.settings.photoCount 500)
          (orDefault st.settings.floorSize 200) := by
  have hinv := floatInv_reachable h
  unfold generateDynamicBasePositions
  split
  · rename_i hcond
    rcases hinv with hbase | ⟨hf, hc, hps⟩
    · exfalso
      rw [hbase] at hcond
      simp at hcond
    · rw [hps, hc, hf]
  · rfl

/-- C8: the Float pattern's base scatter (x, z, phase offset per slot) is the
pure function `pureScatter` of (slot index via list position, floor size,
photo count): any reachable instance state — fresh, or after any history of
`updateSettings` and generation calls — produces exactly it, and two
reachable instances with the same resolved floor size and clamped count
produce identical scatters. -/
theorem float_scatter_deterministic (o : MathOracle) (st : FloatState)
    (h : FloatReachable o st) :
    (generateDynamicBasePositions o st (min st.settings.photoCount 500)
        (orDefault st.settings.floorSize 200)).1
      = pureScatter o (min st.settings.photoCount 500)
          (orDefault st.settings.floorSize 200) ∧
    (∀ st2 : FloatState, FloatReachable o st2 →
      min st2.settings.photoCount 500 = min st.settings.photoCount 500 →
      orDefault st2.settings.floorSize 200 = orDefault st.settings.floorSize 200 →
      (generateDynamicBasePositions o st2 (min st2.settings.photoCount 500)
          (orDefault st2.settings.floorSize 200)).1
        = (generateDynamicBasePositions o st (min st.settings.photoCount 500)
            (orDefault st.settings.floorSize 200)).1) := by
  refine ⟨generateDynamicBase_pure h, ?_⟩
  intro st2 h2 hn hf
  rw [generateDynamicBase_pure h, generateDynamicBase_pure h2, hn, hf]

theorem float_scatter_deterministic_witness :
    FloatReachable oracleId (floatInit cexSettings) ∧
    (generateDynamicBasePositions oracleId (floatInit cexSettings)
        (min cexSettings.photoCount 500) (orDefault cexSettings.floorSize 200)).1
      = pureScatter oracleId (min cexSettings.photoCount 500)
          (orDefault cexSettings.floorSize 200) :=
  ⟨FloatReachable.init cexSettings,
   (float_scatter_deterministic oracleId (floatInit cexSettings)
     (FloatReachable.init cexSettings)).1⟩

/- ### Claim theorems: output shape of all four generators (C10) -/

theorem length_filterMap_of_isSome {α β : Type} (g : α → Option β) :
    ∀ l : List α, (∀ x ∈ l, (g x).isSome) → (l.filterMap g).length = l.length := by
  intro l
  induction l with
  | nil => intro _; rfl
  | cons x xs ih =>
    intro h
    rw [List.filterMap_cons]
    cases hg : g x with
    | none =>
      exfalso
      have hx := h x (by simp)
      rw [hg] at hx
      simp at hx
    | some y =>
      simp only [List.length_cons]
      rw [ih (fun z hz => h z (by simp [hz]))]

theorem floatEntry_isSome (o : MathOracle) (s : SceneSettings) (aT dS : ℚ)
    (base : List BasePosition) (i : ℕ) (hi : i < base.length) :
    (floatEntry o s aT dS base i).isSome := by
  unfold floatEntry
  cases hg : base.get? i with
  | none =>
    exfalso
    rw [List.get?_eq_none] at hg
    omega
  | some bp =>
    rfl

theorem floatGenerate_lengths {o : MathOracle} {st : FloatState}
    (h : FloatReachable o st) (t : ℚ) :
    (floatGenerate o st t).1.positions.length = min st.settings.photoCount 500 ∧
    (floatGenerate o st t).1.rotations.length = min st.settings.photoCount 500 := by
  have hbase := generateDynamicBase_pure h
  unfold floatGenerate
  dsimp only
  constructor <;>
  · rw [List.length_map]
    rw [length_filterMap_of_isSome]
    · exact List.length_range _
    · intro i hi
      apply floatEntry_isSome
      rw [hbase, pureScatter_length]
      exact List.mem_range.mp hi

/-- C10: every one of the four generators returns exactly
`min(photoCount, 500)` positions AND as many rotations — a rotation entry is
pushed for every slot in every branch (photoRotation or animation disabled
included), so every slot index below the bound has a defined transform.  For
Float this holds in every reachable instance state. -/
theorem pattern_output_shape (o : MathOracle) (s : SceneSettings) (t : ℚ) :
    (gridGenerate o s t).positions.length = min s.photoCount 500 ∧
    (gridGenerate o s t).rotations.length = min s.photoCount 500 ∧
    (waveGenerate o s t).positions.length = min s.photoCount 500 ∧
    (waveGenerate o s t).rotations.length = min s.photoCount 500 ∧
    (spiralGenerate o s t).positions.length = min s.photoCount 500 ∧
    (spiralGenerate o s t).rotations.length = min s.photoCount 500 ∧
    ∀ st : FloatState, FloatReachable o st →
      (floatGenerate o st t).1.positions.length = min st.settings.photoCount 500 ∧
      (floatGenerate o st t).1.rotations.length = min st.settings.photoCount 500 :=
  ⟨gridGenerate_positions_length o s t, gridGenerate_rotations_length o s t,
   waveGenerate_positions_length o s t, waveGenerate_rotations_length o s t,
   spiralGenerate_positions_length o s t, spiralGenerate_rotations_length o s t,
   fun _ h => floatGenerate_lengths h t⟩

theorem pattern_output_shape_witness :
    FloatReachable oracleId (floatInit cexSettings) ∧
    (floatGenerate oracleId (floatInit cexSettings) 0).1.positions.length
      = min cexSettings.photoCount 500 ∧
    (gridGenerate oracleId cexSettings 0).positions.length
      = min cexSettings.photoCount 500 :=
  ⟨FloatReachable.init cexSettings,
   ((pattern_output_shape oracleId cexSettings 0).2.2.2.2.2.2
     (floatInit cexSettings) (FloatReachable.init cexSettings)).1,
   (pattern_output_shape oracleId cexSettings 0).1⟩

/- ### BasePattern cache lemmas (C6) -/

theorem lookupKV_mem {α : Type} {k : CacheKey} {v : α} :
    ∀ {l : List (CacheKey × α)}, lookupKV k l = some v → (k, v) ∈ l := by
  intro l
  induction l with
  | nil => intro h; simp [lookupKV] at h
  | cons e rest ih =>
    intro h
    obtain ⟨k1, v1⟩ := e
    unfold lookupKV at h
    by_cases hk : k1 = k
    · rw [if_pos hk] at h
      subst hk
      simp at h
      subst h
      exact List.mem_cons_self _ _
    · rw [if_neg hk] at h
      exact List.mem_cons_of_mem _ (ih h)

theorem mem_setKV {α : Type} {k : CacheKey} {v : α} {e : CacheKey × α} :
    ∀ {l : List (CacheKey × α)}, e ∈ setKV k v l → e = (k, v) ∨ e ∈ l := by
  intro l
  induction l with
  | nil => intro h; simp [setKV] at h; exact Or.inl h
  | cons e1 rest ih =>
    intro h
    obtain ⟨k1, v1⟩ := e1
    unfold setKV at h
    by_cases hk : k1 = k
    · rw [if_pos hk] at h
      rcases List.mem_cons.mp h with h | h
      · exact Or.inl h
      · exact Or.inr (List.mem_cons_of_mem _ h)
    · rw [if_neg hk] at h
      rcases List.mem_cons.mp h with h | h
      · exact Or.inr (h ▸ List.mem_cons_self _ _)
      · rcases ih h with h | h
        · exact Or.inl h
        · exact Or.inr (List.mem_cons_of_mem _ h)

theorem mem_eraseKV {α : Type} {k : CacheKey} {e : CacheKey × α} :
    ∀ {l : List (CacheKey × α)}, e ∈ eraseKV k l → e ∈ l := by
  intro l
  induction l with
  | nil => intro h; simp [eraseKV] at h
  | cons e1 rest ih =>
    intro h
    obtain ⟨k1, v1⟩ := e1
    unfold eraseKV at h
    by_cases hk : k1 = k
    · rw [if_pos hk] at h
      exact List.mem_cons_of_mem _ h
    · rw [if_neg hk] at h
      rcases List.mem_cons.mp h with h | h
      · exact h ▸ List.mem_cons_self _ _
      · exact List.mem_cons_of_mem _ (ih h)

theorem cacheStore_subset (k : CacheKey) (v : PatternState) (now : ℚ) (st : CacheState) :
    ∀ e ∈ (cacheStore k v now st).positionCache, e ∈ setKV k v st.positionCache := by
  intro e he
  unfold cacheStore at he
  dsimp only at he
  by_cases hlen : 100 < (setKV k v st.positionCache).length
  · rw [if_pos hlen] at he
    cases hm : setKV k v st.positionCache with
    | nil => rw [hm] at he; exact absurd he (by simp)
    | cons e0 rest =>
      rw [hm] at he
      dsimp only at he
      rw [← hm] at he ⊢
      exact mem_eraseKV (by rw [hm]; rw [hm] at he; exact he)
  · rw [if_neg hlen] at he
    exact he

theorem cacheStore_WF {gen : ℚ → PatternState} {s : SceneSettings} {st : CacheState}
    (h : CacheWF gen s st) (t now : ℚ) :
    CacheWF gen s (cacheStore (mkCacheKey s t) (gen t) now st) := by
  intro e he
  have := cacheStore_subset (mkCacheKey s t) (gen t) now st e he
  rcases mem_setKV this with he2 | he2
  · exact ⟨t, by rw [he2], by rw [he2]⟩
  · exact h e he2

/-- C6 (amended): the cached entry point returns `generatePositionsInternal`
evaluated at SOME time `t2` in the same 1/60-second bucket (and same
key-relevant settings) as the requested `time` — exactly `internal(time)` on a
cache miss, but possibly a stale same-bucket value on a hit — and the cache
invariant is preserved.  Output equality for the exact requested time, as the
claim states it, does not hold (see the counterexample). -/
theorem cache_transparency_amended (gen : ℚ → PatternState) (s : SceneSettings)
    (now time : ℚ) (st : CacheState) (h : CacheWF gen s st) :
    (∃ t2, roundedTime60 t2 = roundedTime60 time ∧
      (generatePositionsCached gen s now time st).1 = gen t2) ∧
    CacheWF gen s (generatePositionsCached gen s now time st).2 := by
  unfold generatePositionsCached
  dsimp only
  cases hc : lookupKV (mkCacheKey s time) st.positionCache with
  | none =>
    cases hts : lookupKV (mkCacheKey s time) st.cacheTimestamps with
    | none => exact ⟨⟨time, rfl, rfl⟩, cacheStore_WF h time now⟩
    | some ct => exact ⟨⟨time, rfl, rfl⟩, cacheStore_WF h time now⟩
  | some cached =>
    cases hts : lookupKV (mkCacheKey s time) st.cacheTimestamps with
    | none =>
      exact ⟨⟨time, rfl, rfl⟩, cacheStore_WF h time now⟩
    | some ct =>
      dsimp only
      by_cases hcond : ct ≠ 0 ∧ now - ct < CACHE_DURATION
      · rw [if_pos hcond]
        dsimp only
        obtain ⟨t2, hk, hv⟩ := h (mkCacheKey s time, cached) (lookupKV_mem hc)
        have hr : roundedTime60 t2 = roundedTime60 time := by
          have h2 := congrArg CacheKey.roundedTime hk
          simpa [mkCacheKey] using h2.symm
        exact ⟨⟨t2, hr, hv⟩, h⟩
      · rw [if_neg hcond]
        dsimp only
        exact ⟨⟨time, rfl, rfl⟩, cacheStore_WF h time now⟩

theorem cache_transparency_amended_witness :
    CacheWF (gridGenerate oracleId cexSettings) cexSettings ⟨[], []⟩ ∧
    ∃ t2, roundedTime60 t2 = roundedTime60 0 ∧
      (generatePositionsCached (gridGenerate oracleId cexSettings) cexSettings 1 0
          ⟨[], []⟩).1
        = gridGenerate oracleId cexSettings t2 :=
  ⟨fun e he => absurd he (List.not_mem_nil e),
   (cache_transparency_amended (gridGenerate oracleId cexSettings) cexSettings 1 0
     ⟨[], []⟩ (fun e he => absurd he (List.not_mem_nil e))).1⟩

theorem c6_key_eq : mkCacheKey cexSettings (1/100) = mkCacheKey cexSettings 0 := by
  unfold mkCacheKey roundedTime60
  norm_num

theorem c6_first_eval : c6First = (gridGenerate oracleId cexSettings 0,
    ⟨[(mkCacheKey cexSettings 0, gridGenerate oracleId cexSettings 0)],
     [(mkCacheKey cexSettings 0, 1)]⟩) := by
  unfold c6First generatePositionsCached cacheStore
  dsimp only [lookupKV, setKV]
  norm_num

theorem c6_second_eval : c6Second.1 = gridGenerate oracleId cexSettings 0 := by
  unfold c6Second
  rw [c6_first_eval]
  unfold generatePositionsCached
  dsimp only
  rw [c6_key_eq]
  dsimp only [lookupKV]
  rw [if_pos rfl, if_pos rfl]
  dsimp only
  rw [if_pos (by norm_num [CACHE_DURATION] : (1:ℚ) ≠ 0 ∧ (2:ℚ) - 1 < CACHE_DURATION)]

theorem c6_grid_at_zero : gridGenerate oracleId cexSettings 0
    = { positions := [⟨0, 0, 1/10⟩], rotations := [⟨0, 0, 0⟩] } := by
  unfold gridGenerate gridEntry cexSettings oracleId orDefault
  norm_num [List.range_succ, List.range_zero]

theorem c6_grid_at_centi : gridGenerate oracleId cexSettings (1/100)
    = { positions := [⟨9/10000, 3/2500, 18/125⟩], rotations := [⟨0, 0, 0⟩] } := by
  unfold gridGenerate gridEntry cexSettings oracleId orDefault
  norm_num [List.range_succ, List.range_zero]

/-- C6 (counterexample): two cached calls 1 ms apart, at times 0 and 1/100 s —
the same 1/60-second key bucket.  The second call returns the CACHED state of
time 0, which differs from the uncached `generatePositionsInternal(1/100)`:
the cache does change observable output within a time bucket. -/
theorem cache_transparency_counterexample :
    c6Second.1 = gridGenerate oracleId cexSettings 0 ∧
    c6Second.1 ≠ gridGenerate oracleId cexSettings (1/100) := by
  refine ⟨c6_second_eval, ?_⟩
  rw [c6_second_eval, c6_grid_at_zero, c6_grid_at_centi]
  intro h
  have h2 := congrArg PatternState.positions h
  simp only [List.cons.injEq, Vec3.mk.injEq] at h2
  norm_num at h2
